import Mathlib

/-!
Verification of the task-state-management core of a browser to-do list
(`src/script.js`).  The data model and every operation below are shallow
embeddings of the JavaScript source:

* `Status`, `Task`        — the sanitized task record (`text`, `date`, `status`).
* `StoredTask`            — a raw record as it may appear in the persisted JSON
                            array: each field may be absent (`none`) and the
                            `completed` field is represented by its truthiness.
* `loadTasks` / `saveTasks` — persistence (`localStorage` + `JSON.parse` is
                            modelled by the `StoredValue` outcome type).
* `cycleStatus`, `deleteTask`, `addTask`, `pendingCount`, `pendingLabel`
                            — the mutating operations and the pending-count
                            label, translated line by line from the source.

JavaScript semantics made explicit in the embedding:

* `tasks[index]` on an out-of-range index yields `undefined`, so the field
  access `tasks[index].status` in `cycleStatus` throws a `TypeError`; the
  embedding returns `Except.error ()` in that case.
* `x || d` on string-or-absent values picks `d` exactly when the value is
  absent or the empty string (`jsStringOr`).
-/

namespace TodoApp

/-- The three task statuses of the data model. -/
inductive Status where
  | undone
  | inprogress
  | completed
deriving DecidableEq, Repr

/-- A sanitized task record, as held in the in-memory `tasks` array. -/
structure Task where
  text : String
  date : String
  status : Status
deriving DecidableEq, Repr

/-- How each status is spelled in the persisted JSON. -/
def statusToString : Status → String
  | .undone => "undone"
  | .inprogress => "inprogress"
  | .completed => "completed"

/-- A raw stored record: any of `text`, `date`, `status` may be absent, and
`completed` is the truthiness of the legacy boolean flag (absent = falsy). -/
structure StoredTask where
  text : Option String
  date : Option String
  status : Option String
  completed : Bool
deriving DecidableEq, Repr

/-- JavaScript `v || dflt` for a string field that may be absent:
the default is taken when the field is absent or the empty string. -/
def jsStringOr (v : Option String) (dflt : String) : String :=
  match v with
  | none => dflt
  | some s => if s = "" then dflt else s

/-- The status sanitizer inside `loadTasks`: keep `task.status` when it is one
of the three known status strings, otherwise fall back to the legacy
`task.completed` flag (truthy gives `completed`), finally default `undone`. -/
def sanitizeStatus (st : Option String) (completedFlag : Bool) : Status :=
  if st = some "undone" then .undone
  else if st = some "inprogress" then .inprogress
  else if st = some "completed" then .completed
  else if completedFlag then .completed else .undone

/-- The per-record sanitizer applied by `loadTasks` to each stored entry. -/
def sanitize (r : StoredTask) : Task :=
  { text := jsStringOr r.text "Untitled"
    date := jsStringOr r.date ""
    status := sanitizeStatus r.status r.completed }

/-- The possible outcomes of reading and JSON-parsing the persisted value:
the key is absent, `JSON.parse` throws, the parse yields a non-array, or it
yields an array of records. -/
inductive StoredValue where
  | absent
  | unparsable
  | nonArray
  | array (records : List StoredTask)
deriving DecidableEq, Repr

/-- Function loadTasks: absent storage or a parse error (caught in the
`try`/`catch`) yields `[]`, a non-array parse yields `[]`, and an array is
sanitized entry by entry. -/
def loadTasks : StoredValue → List Task
  | .absent => []
  | .unparsable => []
  | .nonArray => []
  | .array rs => rs.map sanitize

/-- Serialization (JSON.stringify) of one in-memory task: all three fields are present in
the stored record and no legacy `completed` flag is written (absent = falsy). -/
def taskToStored (t : Task) : StoredTask :=
  { text := some t.text
    date := some t.date
    status := some (statusToString t.status)
    completed := false }

/-- Function saveTasks: the full sequence is serialized back to storage as a JSON
array of records. -/
def saveTasks (ts : List Task) : StoredValue :=
  .array (ts.map taskToStored)

/-- The transition table inside `cycleStatus`:
`undone → inprogress → completed → undone` (default branch `undone`). -/
def nextStatus : Status → Status
  | .undone => .inprogress
  | .inprogress => .completed
  | .completed => .undone

/-- Function cycleStatus(index): reads `tasks[index].status`, computes the next
status and writes it back.  On an out-of-range index, `tasks[index]` is
`undefined` in JavaScript, so the `.status` access throws a `TypeError`
before any mutation; the embedding reports that as `Except.error ()`. -/
def cycleStatus (index : Int) (tasks : List Task) : Except Unit (List Task) :=
  if index < 0 then .error ()
  else
    match tasks[index.toNat]? with
    | none => .error ()
    | some t => .ok (tasks.set index.toNat { t with status := nextStatus t.status })

/-- Function deleteTask(index): bounds-checked; `splice(index, 1)` removes the
element at `index` when `0 <= index < tasks.length`, otherwise no-op. -/
def deleteTask (index : Int) (tasks : List Task) : List Task :=
  if 0 ≤ index ∧ index < (tasks.length : Int) then
    tasks.eraseIdx index.toNat
  else tasks

/-- Function updatePendingCount: the number of tasks whose status is not
`completed`. -/
def pendingCount (tasks : List Task) : Nat :=
  (tasks.filter (fun t => t.status ≠ Status.completed)).length

/-- The label written by `updatePendingCount`: the template literal
interpolating `count`, with a plural "s" appended exactly when the count
differs from 1. -/
def pendingLabel (tasks : List Task) : String :=
  let count := pendingCount tasks
  "You have " ++ toString count ++ " pending task" ++
    (if count ≠ 1 then "s" else "")

/-- The result of `addTask`: the (possibly updated) task sequence and
whether the validation popup was shown. -/
structure AddResult where
  tasks : List Task
  popupShown : Bool
deriving DecidableEq, Repr

/-- Function addTask: trims the text input; if the trimmed text or the date value
is empty, shows the popup and returns without mutating, otherwise appends
a new record with the given text and date and status `undone`. -/
def addTask (rawText dateValue : String) (tasks : List Task) : AddResult :=
  let text := rawText.trim
  if text = "" ∨ dateValue = "" then
    { tasks := tasks, popupShown := true }
  else
    { tasks := tasks ++ [{ text := text, date := dateValue, status := .undone }]
      popupShown := false }

end TodoApp

namespace TodoApp

/-- Setting an index of a list to the element already there leaves the list
unchanged. -/
theorem set_get_self (l : List Task) (n : Nat) (h : n < l.length) :
    l.set n (l.get ⟨n, h⟩) = l := by
  apply List.ext_getElem?
  intro m
  rcases eq_or_ne m n with rfl | hm
  · rw [List.getElem?_set_eq_of_lt _ h, List.getElem?_eq_getElem h, List.get_eq_getElem]
  · rw [List.getElem?_set_ne hm.symm]

/-- On an in-range index, `cycleStatus` succeeds and replaces exactly the
status of the addressed task by its successor in the rotation. -/
theorem cycleStatus_in_range (i : Int) (tasks : List Task) (h0 : 0 ≤ i)
    (hn : i.toNat < tasks.length) :
    cycleStatus i tasks = Except.ok (tasks.set i.toNat
      { tasks.get ⟨i.toNat, hn⟩ with
        status := nextStatus (tasks.get ⟨i.toNat, hn⟩).status }) := by
  unfold cycleStatus
  rw [if_neg (by omega), List.getElem?_eq_getElem hn]
  rfl

/-- Reading back the index just written by `List.set` yields the written
element. -/
theorem get_set_same (l : List Task) (n : Nat) (a : Task)
    (h : n < (l.set n a).length) :
    (l.set n a).get ⟨n, h⟩ = a := by
  have h' : n < l.length := by simpa using h
  simp [List.getElem_set]

/-- Sanitizing the serialized form of a task with non-empty text recovers the
task exactly. -/
theorem sanitize_taskToStored (t : Task) (h : t.text ≠ "") :
    sanitize (taskToStored t) = t := by
  cases t with
  | mk text date status =>
    simp only [sanitize, taskToStored, jsStringOr] at *
    have h1 : (if text = "" then "Untitled" else text) = text := by simp [h]
    have h2 : (if date = "" then "" else date) = date := by split <;> simp_all
    have h3 : sanitizeStatus (some (statusToString status)) false = status := by
      cases status <;> rfl
    rw [Task.mk.injEq]
    exact ⟨h1, h2, h3⟩

/-- Claim C1: the status cycle is total and cyclic over the three statuses —
`cycleStatus` maps `undone` to `inprogress`, `inprogress` to `completed`, and
`completed` to `undone`, and for every task sequence and valid index, three
applications of `cycleStatus` return the sequence to its original state. -/
theorem cycleStatus_total_cyclic :
    (nextStatus .undone = .inprogress ∧ nextStatus .inprogress = .completed ∧
      nextStatus .completed = .undone ∧
      ∀ s : Status, nextStatus (nextStatus (nextStatus s)) = s) ∧
    ∀ (tasks : List Task) (i : Int), 0 ≤ i → i < (tasks.length : Int) →
      ((cycleStatus i tasks).bind (cycleStatus i)).bind (cycleStatus i) =
        Except.ok tasks := by
  constructor
  · exact ⟨rfl, rfl, rfl, fun s => by cases s <;> rfl⟩
  · intro tasks i h0 h1
    have hn : i.toNat < tasks.length := by omega
    have hcyc : ∀ s : Status, nextStatus (nextStatus (nextStatus s)) = s := by
      intro s; cases s <;> rfl
    have hn1 : i.toNat <
        (tasks.set i.toNat
          { tasks.get ⟨i.toNat, hn⟩ with
            status := nextStatus (tasks.get ⟨i.toNat, hn⟩).status }).length := by
      simpa using hn
    have step1 := cycleStatus_in_range i tasks h0 hn
    have step2 := cycleStatus_in_range i _ h0 hn1
    rw [get_set_same] at step2
    rw [List.set_set] at step2
    have hn2 : i.toNat <
        (tasks.set i.toNat
          { tasks.get ⟨i.toNat, hn⟩ with
            status := nextStatus (nextStatus (tasks.get ⟨i.toNat, hn⟩).status) }).length := by
      simpa using hn
    have step3 := cycleStatus_in_range i _ h0 hn2
    rw [get_set_same] at step3
    rw [List.set_set] at step3
    rw [step1]
    show (cycleStatus i _).bind (cycleStatus i) = _
    rw [step2]
    show cycleStatus i _ = _
    rw [step3]
    rw [hcyc]
    rw [set_get_self tasks i.toNat hn]

/-- Witness for claim C1: cycling the single task of a one-element sequence
three times returns the original sequence. -/
theorem cycleStatus_total_cyclic_witness :
    ((cycleStatus 0 [⟨"a", "", .undone⟩]).bind (cycleStatus 0)).bind (cycleStatus 0) =
      Except.ok [⟨"a", "", .undone⟩] :=
  cycleStatus_total_cyclic.2 [⟨"a", "", .undone⟩] 0 (by decide) (by decide)

/-- Counterexample for claim C2: calling `cycleStatus` on index 0 of the
empty sequence is not a silent no-op — the result is not a successful return
of the unchanged sequence (in the source, reading the status of the
undefined element throws a TypeError). -/
theorem cycleStatus_oob_not_silent_noop :
    cycleStatus 0 ([] : List Task) ≠ Except.ok [] := by
  simp [cycleStatus]

/-- Claim C2 (amended): for every index outside the bounds of the task
sequence, `cycleStatus` throws before mutating anything — the embedding
returns an error and no updated sequence is produced, so the sequence is
unchanged but an error IS surfaced to the caller. -/
theorem cycleStatus_oob_throws (i : Int) (tasks : List Task)
    (h : i < 0 ∨ (tasks.length : Int) ≤ i) :
    cycleStatus i tasks = Except.error () := by
  unfold cycleStatus
  rcases h with h | h
  · rw [if_pos h]
  · rw [if_neg (by omega)]
    have hnone : tasks[i.toNat]? = none := List.getElem?_eq_none (by omega)
    rw [hnone]

/-- Witness for claim C2 (amended): cycling index -1 of the empty sequence
reports the thrown error. -/
theorem cycleStatus_oob_throws_witness :
    cycleStatus (-1) ([] : List Task) = Except.error () :=
  cycleStatus_oob_throws (-1) [] (Or.inl (by decide))

/-- Claim C3: a legacy record with text "x" and a truthy completed flag loads
as the task with text "x", empty date and status `completed`; in general,
whenever the stored status is not one of the three known strings, the loaded
status falls back to the boolean completed flag, defaulting to `undone`. -/
theorem loadTasks_legacy_migration :
    (sanitize { text := some "x", date := none, status := none, completed := true } =
      { text := "x", date := "", status := .completed }) ∧
    ∀ r : StoredTask,
      r.status ≠ some "undone" → r.status ≠ some "inprogress" →
      r.status ≠ some "completed" →
      (sanitize r).status = (if r.completed then Status.completed else Status.undone) := by
  constructor
  · rfl
  · intro r h1 h2 h3
    simp [sanitize, sanitizeStatus, h1, h2, h3]

/-- Witness for claim C3: a record with an unknown status string and falsy
completed flag loads with status `undone`. -/
theorem loadTasks_legacy_migration_witness :
    (sanitize { text := some "y", date := some "d", status := some "late",
                completed := false }).status = Status.undone :=
  loadTasks_legacy_migration.2
    { text := some "y", date := some "d", status := some "late", completed := false }
    (by decide) (by decide) (by decide)

/-- Claim C4: saving any sequence of valid tasks (non-empty text) and loading
it back yields an equal sequence — text, date and status are preserved. -/
theorem save_load_roundtrip (tasks : List Task) (h : ∀ t ∈ tasks, t.text ≠ "") :
    loadTasks (saveTasks tasks) = tasks := by
  induction tasks with
  | nil => rfl
  | cons t ts ih =>
    have ht : t.text ≠ "" := h t (List.mem_cons_self t ts)
    have hts : ∀ u ∈ ts, u.text ≠ "" := fun u hu => h u (List.mem_cons_of_mem t hu)
    have ihr := ih hts
    simp only [saveTasks, loadTasks, List.map_cons] at ihr ⊢
    rw [sanitize_taskToStored t ht, ihr]

/-- Witness for claim C4: a concrete two-task sequence survives the
save-then-load round trip unchanged. -/
theorem save_load_roundtrip_witness :
    loadTasks (saveTasks
      [⟨"a", "2025-01-01T10:00", .inprogress⟩, ⟨"b", "", .completed⟩]) =
      [⟨"a", "2025-01-01T10:00", .inprogress⟩, ⟨"b", "", .completed⟩] :=
  save_load_roundtrip
    [⟨"a", "2025-01-01T10:00", .inprogress⟩, ⟨"b", "", .completed⟩] (by decide)

/-- Claim C5: the pending count is the number of tasks whose status is not
`completed`; the sequence with statuses undone, inprogress, completed has
count 2 and label "You have 2 pending tasks", and any sequence with exactly
one pending task gets the singular label "You have 1 pending task". -/
theorem pendingCount_and_label_correct :
    (pendingCount [⟨"a", "", .undone⟩, ⟨"b", "", .inprogress⟩, ⟨"c", "", .completed⟩] = 2 ∧
     pendingLabel [⟨"a", "", .undone⟩, ⟨"b", "", .inprogress⟩, ⟨"c", "", .completed⟩] =
       "You have 2 pending tasks") ∧
    (∀ tasks : List Task,
      pendingCount tasks = tasks.countP (fun t => t.status ≠ Status.completed)) ∧
    (∀ tasks : List Task, pendingCount tasks = 1 →
      pendingLabel tasks = "You have 1 pending task") := by
  refine ⟨⟨rfl, rfl⟩, ?_, ?_⟩
  · intro tasks
    rw [pendingCount, List.countP_eq_length_filter]
  · intro tasks h
    simp only [pendingLabel, h]
    rfl

/-- Witness for claim C5: a one-element sequence with a non-completed task
gets the singular label. -/
theorem pendingCount_and_label_correct_witness :
    pendingLabel [⟨"a", "", .undone⟩] = "You have 1 pending task" :=
  pendingCount_and_label_correct.2.2 [⟨"a", "", .undone⟩] (by decide)

/-- Claim C6: when the task text is empty after trimming or the date value
is empty, `addTask` leaves the task sequence unchanged and shows the
validation popup — no partial task is created. -/
theorem addTask_rejects_invalid_input (rawText dateValue : String)
    (tasks : List Task) (h : rawText.trim = "" ∨ dateValue = "") :
    addTask rawText dateValue tasks = { tasks := tasks, popupShown := true } := by
  simp only [addTask]
  rw [if_pos h]

/-- Witness for claim C6: adding a task with an empty date value leaves the
empty sequence unchanged and shows the popup. -/
theorem addTask_rejects_invalid_input_witness :
    addTask "buy milk" "" [] = { tasks := [], popupShown := true } :=
  addTask_rejects_invalid_input "buy milk" "" [] (Or.inr rfl)

/-- Claim C7: `deleteTask` is bounds-checked — for every task sequence,
index -1 and index `length` leave the sequence unchanged, while a valid
index removes exactly the element at that position. -/
theorem deleteTask_bounds_checked (tasks : List Task) :
    deleteTask (-1) tasks = tasks ∧
    deleteTask (tasks.length : Int) tasks = tasks ∧
    ∀ i : Int, 0 ≤ i → i < (tasks.length : Int) →
      deleteTask i tasks = tasks.take i.toNat ++ tasks.drop (i.toNat + 1) := by
  refine ⟨?_, ?_, ?_⟩
  · rw [deleteTask, if_neg (by omega)]
  · rw [deleteTask, if_neg (by omega)]
  · intro i h0 h1
    rw [deleteTask, if_pos ⟨h0, h1⟩, List.eraseIdx_eq_take_drop_succ]

/-- Witness for claim C7: on the empty sequence, deleting at -1 and at the
length (0) are no-ops; on a concrete two-task sequence, deleting at 0
removes exactly the first element. -/
theorem deleteTask_bounds_checked_witness :
    (deleteTask (-1) ([] : List Task) = [] ∧ deleteTask 0 ([] : List Task) = []) ∧
    deleteTask 0 [⟨"a", "", .undone⟩, ⟨"b", "", .completed⟩] =
      [⟨"b", "", .completed⟩] :=
  ⟨⟨(deleteTask_bounds_checked []).1, (deleteTask_bounds_checked []).2.1⟩,
   (deleteTask_bounds_checked [⟨"a", "", .undone⟩, ⟨"b", "", .completed⟩]).2.2 0
     (by decide) (by decide)⟩

/-- Claim C8: `loadTasks` never fails the caller — an absent stored value and
an unparsable one both yield the empty sequence; the parse error is caught,
not propagated. -/
theorem loadTasks_never_fails :
    loadTasks .absent = [] ∧ loadTasks .unparsable = [] :=
  ⟨rfl, rfl⟩

/-- Claim C9: stale-index double delete — on the sequence of three tasks a,
b, c, applying `deleteTask 1` and then `deleteTask 2` (both indices computed
against the original sequence) removes b but not c: the first delete shifts
indices down, the second stale index is out of bounds, and the result is
the two-element sequence a, c. -/
theorem stale_index_double_delete (a b c : Task) :
    deleteTask 2 (deleteTask 1 [a, b, c]) = [a, c] := by
  simp [deleteTask, List.eraseIdx]

/-- Claim C10: the load-time default "Untitled" applies to every falsy text
value — a stored record with empty-string text loads as "Untitled", and
consequently a task whose text is the empty string does not survive a
save-then-load round trip. -/
theorem load_empty_text_becomes_untitled (r : StoredTask) (t : Task)
    (hr : r.text = some "") (ht : t.text = "") :
    (sanitize r).text = "Untitled" ∧ sanitize (taskToStored t) ≠ t := by
  constructor
  · simp [sanitize, jsStringOr, hr]
  · intro heq
    have hcontra : (sanitize (taskToStored t)).text = t.text := congrArg Task.text heq
    rw [ht] at hcontra
    simp [sanitize, taskToStored, jsStringOr, ht] at hcontra

/-- Witness for claim C10: the concrete record with empty text loads as
"Untitled", and the concrete empty-text task does not round-trip. -/
theorem load_empty_text_becomes_untitled_witness :
    (sanitize { text := some "", date := none, status := none,
                completed := false }).text = "Untitled" ∧
    sanitize (taskToStored ⟨"", "", .undone⟩) ≠ (⟨"", "", .undone⟩ : Task) :=
  load_empty_text_becomes_untitled
    { text := some "", date := none, status := none, completed := false }
    ⟨"", "", .undone⟩ rfl rfl

end TodoApp
